import Mathlib

/-!
Verification of the Filemaker XML importer (filemaker.py).

The Python source is shallowly embedded: pure functions become Lean
functions, Python exceptions become an explicit `PyResult` value, and the
SAX content handler becomes a step function on an explicit stack state.
-/

namespace Filemaker

/-- Python exception values that the modelled code can raise. -/
inductive PyError where
  | valueError (msg : String)
  | keyError (key : String)
  | attributeError
  | indexError
deriving DecidableEq, Repr

/-- Outcome of running a piece of Python code: a normal return value or a
raised exception. -/
inductive PyResult (α : Type) where
  | raised (e : PyError)
  | returned (a : α)
deriving DecidableEq, Repr

/-- Model of `datetime.time`: hour, minute and second (the code never uses
microseconds). -/
structure PyTime where
  hour : Nat
  minute : Nat
  second : Nat
deriving DecidableEq, Repr

/-- Model of the `datetime.time` constructor: CPython validates the hour,
then the minute, then the second, raising `ValueError` for the first
component out of range. -/
def timeMk (h m s : Nat) : PyResult PyTime :=
  if 23 < h then .raised (.valueError "hour must be in 0..23")
  else if 59 < m then .raised (.valueError "minute must be in 0..59")
  else if 59 < s then .raised (.valueError "second must be in 0..59")
  else .returned ⟨h, m, s⟩

/-! Model of the regular expression used by `flexitime`:

  `(?P<hours>\d{1,2})[\.:](?P<minutes>\d{1,2})([\.:](?P<seconds>\d{1,2}))? ?(?P<ampm>[Ap][Mm])?`

applied with `re.search`.  The match attempt at a given start position is
written out with Python's leftmost-greedy backtracking made explicit:
the two-digit reading of `hours` is preferred and the one-digit reading is
tried only when the rest of the pattern fails after it; `minutes`, the
optional seconds group, the optional space and the `ampm` group never
force backtracking because everything after `minutes` is optional.
Note the character class `[Ap][Mm]` of the source: only `A` or `p`
followed by `M` or `m` is captured. -/

/-- Captures produced by a successful match of the flexitime pattern. -/
structure TimeParts where
  hours : Nat
  minutes : Nat
  seconds : Option Nat
  ampm : Option String
deriving DecidableEq, Repr

/-- Characters accepted by the separator class `[\.:]`. -/
def isSepChar (c : Char) : Bool := c == '.' || c == ':'

/-- Numeric value of an ASCII digit character. -/
def digitVal (c : Char) : Nat := c.toNat - '0'.toNat

/-- The group `(?P<ampm>[Ap][Mm])` tried at the head of the input. -/
def matchAmPm : List Char → Option String
  | a :: b :: _ =>
    if (a == 'A' || a == 'p') && (b == 'M' || b == 'm') then
      some (String.mk [a, b])
    else none
  | _ => none

/-- The suffix ` ?(?P<ampm>[Ap][Mm])?` of the pattern: a greedy optional
space, then the optional ampm group. -/
def matchTail (cs : List Char) : Option String :=
  match cs with
  | ' ' :: rest => matchAmPm rest
  | _ => matchAmPm cs

/-- The suffix `([\.:](?P<seconds>\d{1,2}))? ?(?P<ampm>[Ap][Mm])?`:
the greedy optional seconds group followed by the tail.  Returns the
seconds capture (if the group matched) with the ampm capture. -/
def matchSecTail (cs : List Char) : Option Nat × Option String :=
  match cs with
  | c :: d1 :: rest =>
    if isSepChar c && d1.isDigit then
      match rest with
      | d2 :: rest2 =>
        if d2.isDigit then (some (10 * digitVal d1 + digitVal d2), matchTail rest2)
        else (some (digitVal d1), matchTail rest)
      | [] => (some (digitVal d1), matchTail [])
    else (none, matchTail cs)
  | _ => (none, matchTail cs)

/-- The pattern from `(?P<minutes>\d{1,2})` on, with the hours capture
already fixed to `h`.  Fails exactly when no minutes digit is present. -/
def matchFromMinutes (h : Nat) (cs : List Char) : Option TimeParts :=
  match cs with
  | d1 :: rest =>
    if d1.isDigit then
      match rest with
      | d2 :: rest2 =>
        if d2.isDigit then
          let (s, ap) := matchSecTail rest2
          some ⟨h, 10 * digitVal d1 + digitVal d2, s, ap⟩
        else
          let (s, ap) := matchSecTail rest
          some ⟨h, digitVal d1, s, ap⟩
      | [] => some ⟨h, digitVal d1, none, none⟩
    else none
  | [] => none

/-- One match attempt of the whole pattern anchored at the head of `cs`:
`hours` greedily takes two digits, falling back to one digit when the
remainder of the pattern fails. -/
def tryMatch (cs : List Char) : Option TimeParts :=
  match cs with
  | c1 :: c2 :: rest =>
    if c1.isDigit then
      let two :=
        if c2.isDigit then
          match rest with
          | c3 :: rest2 =>
            if isSepChar c3 then
              matchFromMinutes (10 * digitVal c1 + digitVal c2) rest2
            else none
          | [] => none
        else none
      match two with
      | some p => some p
      | none => if isSepChar c2 then matchFromMinutes (digitVal c1) rest else none
    else none
  | _ => none

/-- `re.search`: the first start position (leftmost) whose match attempt
succeeds.  The pattern cannot match fewer than three characters, so the
empty suffix never matches. -/
def regexSearch (cs : List Char) : Option TimeParts :=
  match cs with
  | [] => none
  | _ :: rest =>
    match tryMatch cs with
    | some p => some p
    | none => regexSearch rest

/-- Model of `str.lower()` (the captures it is applied to are ASCII). -/
def pyLower (s : String) : String := String.mk (s.data.map Char.toLower)

/-- The test `parts['ampm'] and parts['ampm'].lower() == 'pm'` of the
source, as a Boolean on the optional capture. -/
def ampmIsPm : Option String → Bool
  | some a => pyLower a == "pm"
  | none => false

/-- The hour adjustment of `flexitime` on the captured parts: add 12 for
a captured `pm` marker when the hour is below 12, then reset an hour
above 23 to 0. -/
def flexHour (p : TimeParts) : Nat :=
  let h0 := p.hours
  let h1 := if ampmIsPm p.ampm ∧ h0 < 12 then h0 + 12 else h0
  if 23 < h1 then 0 else h1

/-- Model of `flexitime(value)`.  The source searches for the pattern,
defaults missing seconds to 0, adjusts the hour (`flexHour`) and builds
a `datetime.time` — whose constructor can raise `ValueError` when the
minute or second component is out of range. -/
def flexitime (value : String) : PyResult (Option PyTime) :=
  match regexSearch value.data with
  | none => .returned none
  | some p =>
    match timeMk (flexHour p) p.minutes (p.seconds.getD 0) with
    | .raised e => .raised e
    | .returned t => .returned (some t)

/-! Model of `time.strptime(value, '%Y/%m/%d')` followed by
`datetime.date(*t[:3])`, as used by `format_date` with the default
`DEFAULT_DATEFMT`.  CPython's `_strptime` compiles the format to the
anchored regular expression
`(?P<Y>\d\d\d\d)/(?P<m>1[0-2]|0[1-9]|[1-9])/(?P<d>3[01]|[12]\d|0[1-9]|[1-9])`,
requires the match to consume the whole string, and then validates the
calendar date by constructing a `datetime.date`, which raises
`ValueError` for a day out of range for the month or a year outside
1..9999. -/

/-- Model of `datetime.date`: year, month, day. -/
structure PyDate where
  year : Nat
  month : Nat
  day : Nat
deriving DecidableEq, Repr

/-- Gregorian leap-year test, as in CPython's datetime module. -/
def isLeap (y : Nat) : Bool := y % 4 == 0 && (y % 100 != 0 || y % 400 == 0)

/-- Number of days in a month, as in CPython's datetime module. -/
def daysInMonth (y m : Nat) : Nat :=
  if m == 2 then (if isLeap y then 29 else 28)
  else if m == 4 || m == 6 || m == 9 || m == 11 then 30
  else 31

/-- Model of the `datetime.date` constructor: validates year, month and
day ranges, raising `ValueError` as CPython does. -/
def dateMk (y m d : Nat) : PyResult PyDate :=
  if y < 1 ∨ 9999 < y then .raised (.valueError "year is out of range")
  else if m < 1 ∨ 12 < m then .raised (.valueError "month must be in 1..12")
  else if d < 1 ∨ daysInMonth y m < d then .raised (.valueError "day is out of range for month")
  else .returned ⟨y, m, d⟩

/-- The `%m` component `1[0-2]|0[1-9]|[1-9]`, alternatives tried in
order; returns the month with the remaining input. -/
def matchMonth : List Char → Option (Nat × List Char)
  | c1 :: c2 :: rest =>
    if c1 == '1' && ('0' ≤ c2 && c2 ≤ '2') then some (10 + digitVal c2, rest)
    else if c1 == '0' && ('1' ≤ c2 && c2 ≤ '9') then some (digitVal c2, rest)
    else if '1' ≤ c1 && c1 ≤ '9' then some (digitVal c1, c2 :: rest)
    else none
  | [c1] => if '1' ≤ c1 && c1 ≤ '9' then some (digitVal c1, []) else none
  | [] => none

/-- The `%d` component `3[01]|[12]\d|0[1-9]|[1-9]`, alternatives tried in
order; returns the day with the remaining input. -/
def matchDay : List Char → Option (Nat × List Char)
  | c1 :: c2 :: rest =>
    if c1 == '3' && (c2 == '0' || c2 == '1') then some (30 + digitVal c2, rest)
    else if (c1 == '1' || c1 == '2') && c2.isDigit then
      some (10 * digitVal c1 + digitVal c2, rest)
    else if c1 == '0' && ('1' ≤ c2 && c2 ≤ '9') then some (digitVal c2, rest)
    else if '1' ≤ c1 && c1 ≤ '9' then some (digitVal c1, c2 :: rest)
    else none
  | [c1] => if '1' ≤ c1 && c1 ≤ '9' then some (digitVal c1, []) else none
  | [] => none

/-- Textual parse of `'%Y/%m/%d'`: four digits, slash, month, slash, day,
with nothing left over (strptime raises "unconverted data remains"
otherwise). -/
def strptimeYmd (cs : List Char) : Option (Nat × Nat × Nat) :=
  match cs with
  | y1 :: y2 :: y3 :: y4 :: sl :: rest =>
    if y1.isDigit && y2.isDigit && y3.isDigit && y4.isDigit && sl == '/' then
      match matchMonth rest with
      | some (m, sl2 :: rest2) =>
        if sl2 == '/' then
          match matchDay rest2 with
          | some (d, []) =>
            some (1000 * digitVal y1 + 100 * digitVal y2 + 10 * digitVal y3 + digitVal y4, m, d)
          | _ => none
        else none
      | _ => none
    else none
  | _ => none

/-- Model of `FMPImporter.format_date` with the default date format
`'%Y/%m/%d'`: the empty string gives `None`; otherwise
`time.strptime(value, self.datefmt)` raises `ValueError` when the string
does not match the pattern or denotes an invalid calendar date, and the
result is `datetime.date(*t[:3])`. -/
def format_date (value : String) : PyResult (Option PyDate) :=
  if value = "" then .returned none
  else
    match strptimeYmd value.data with
    | none => .raised (.valueError "time data does not match format")
    | some (y, m, d) =>
      match dateMk y m d with
      | .raised e => .raised e
      | .returned dt => .returned (some dt)

/-! Model of `FMPImporter.format_number`: strip every character that is
not a period or a digit, return `None` on the empty remainder, otherwise
`float(...)`, degrading a `ValueError` to `None`.  Since the stripped
string consists only of digits and periods, `float` succeeds exactly when
there is at least one digit and at most one period, and the value is the
usual decimal reading (modelled exactly as a rational). -/

/-- Decimal value of a list of ASCII digits (`natOfDigits [] = 0`). -/
def natOfDigits (cs : List Char) : Nat :=
  cs.foldl (fun acc c => 10 * acc + digitVal c) 0

/-- Model of Python `float()` applied to a string of digits and periods
only — the only inputs `format_number` feeds it.  Succeeds when the
string has at least one digit and at most one period. -/
def pyFloatDigitsDots (cs : List Char) : PyResult ℚ :=
  if cs.any Char.isDigit && (cs.filter (fun c => c == '.')).length ≤ 1 then
    let intPart := cs.takeWhile (fun c => c != '.')
    let fracPart := (cs.dropWhile (fun c => c != '.')).drop 1
    .returned ((natOfDigits intPart : ℚ) + (natOfDigits fracPart : ℚ) / 10 ^ fracPart.length)
  else .raised (.valueError "could not convert string to float")

/-- Characters kept by `re.sub(r'[^\.\d]', '', value)`. -/
def keepDigitDot (c : Char) : Bool := c.isDigit || c == '.'

/-- Model of `FMPImporter.format_number`. -/
def format_number (value : String) : PyResult (Option ℚ) :=
  let stripped := value.data.filter keepDigitDot
  if stripped = [] then .returned none
  else
    match pyFloatDigitsDots stripped with
    | .returned q => .returned (some q)
    | .raised _ => .returned none

/-- Model of `FMPImporter.format_time`: `flexitime(value) or
datetime.time()`.  In Python 2 a `datetime.time` equal to midnight is
falsy, so the `or` replaces both `None` and a parsed midnight by
`datetime.time()` — which is the same value `00:00:00`; an exception from
`flexitime` propagates. -/
def format_time (value : String) : PyResult PyTime :=
  match flexitime value with
  | .raised e => .raised e
  | .returned none => .returned ⟨0, 0, 0⟩
  | .returned (some t) => .returned (if t = ⟨0, 0, 0⟩ then ⟨0, 0, 0⟩ else t)

/-- Model of `FMPImporter.format_text`: `unicode(value).strip()`, i.e.
the value with leading and trailing whitespace removed. -/
def format_text (value : String) : String := value.trim

/-- Typed value produced by the coercion layer: `none` is the Python
`None` sentinel. -/
inductive PyValue where
  | none
  | num (q : ℚ)
  | date (d : PyDate)
  | time (t : PyTime)
  | text (s : String)
deriving DecidableEq, Repr

/-- Model of `FMPImporter.format_value`: dispatch on the declared type
string; any kind other than NUMBER, DATE and TIME falls through to
`format_text`. -/
def format_value (kind : String) (value : String) : PyResult PyValue :=
  if kind = "NUMBER" then
    match format_number value with
    | .raised e => .raised e
    | .returned Option.none => .returned .none
    | .returned (some q) => .returned (.num q)
  else if kind = "DATE" then
    match format_date value with
    | .raised e => .raised e
    | .returned Option.none => .returned .none
    | .returned (some d) => .returned (.date d)
  else if kind = "TIME" then
    match format_time value with
    | .raised e => .raised e
    | .returned t => .returned (.time t)
  else .returned (.text (format_text value))

/-! Model of the field registry, the importer object and the SAX content
handler.

Python dictionaries with meaningful insertion order
(`collections.OrderedDict`, and the attribute mappings) are modelled as
association lists; assigning to an existing key updates the value in
place keeping the key's position, assigning a fresh key appends. -/

/-- OrderedDict assignment `d[k] = v`. -/
def odInsert {α : Type} (l : List (String × α)) (k : String) (v : α) : List (String × α) :=
  if l.any (fun p => p.1 == k) then
    l.map (fun p => if p.1 == k then (k, v) else p)
  else l ++ [(k, v)]

/-- Dictionary lookup `d[k]` returning an option. -/
def odFind {α : Type} (l : List (String × α)) (k : String) : Option α :=
  (l.find? (fun p => p.1 == k)).map (fun p => p.2)

/-- Building `OrderedDict(pairs)` from a list of key-value pairs. -/
def odOfPairs {α : Type} (ps : List (String × α)) : List (String × α) :=
  ps.foldl (fun acc p => odInsert acc p.1 p.2) []

/-- Subscription `attrs[k]` on an attribute mapping, raising `KeyError`
when the key is absent. -/
def attrGet (attrs : List (String × String)) (k : String) : PyResult String :=
  match odFind attrs k with
  | some v => .returned v
  | Option.none => .raised (.keyError k)

/-- Model of Python 2 `int()` on a string: surrounding whitespace is
ignored, an optional sign precedes a non-empty run of ASCII digits;
anything else raises `ValueError`. -/
def pyInt (s : String) : PyResult Int :=
  let cs := (((s.data.dropWhile Char.isWhitespace).reverse).dropWhile Char.isWhitespace).reverse
  match cs with
  | '-' :: ds =>
    if ds ≠ [] ∧ ds.all Char.isDigit then .returned (-(natOfDigits ds : Int))
    else .raised (.valueError "invalid literal for int()")
  | '+' :: ds =>
    if ds ≠ [] ∧ ds.all Char.isDigit then .returned (natOfDigits ds : Int)
    else .raised (.valueError "invalid literal for int()")
  | ds =>
    if ds ≠ [] ∧ ds.all Char.isDigit then .returned (natOfDigits ds : Int)
    else .raised (.valueError "invalid literal for int()")

/-- The XML tree node of the source (`XMLNode`): tag name, attribute
mapping, accumulated text, ordered children. -/
inductive XMLNode where
  | mk (name : String) (attrs : List (String × String)) (text : String)
      (children : List XMLNode)

def XMLNode.name : XMLNode → String
  | .mk n _ _ _ => n

def XMLNode.attrs : XMLNode → List (String × String)
  | .mk _ a _ _ => a

def XMLNode.text : XMLNode → String
  | .mk _ _ t _ => t

def XMLNode.children : XMLNode → List XMLNode
  | .mk _ _ _ c => c

/-- The four-tuple `(name, kind, maxrepeat, empty)` stored by
`add_field`. -/
structure FieldDef where
  name : String
  kind : String
  maxrepeat : Int
  empty : Bool
deriving DecidableEq, Repr

/-- Model of `FMPImporter`.  `fields` is the OrderedDict of field
definitions; `database` the node captured by `add_database`; `imported`
records, in order, the row nodes handed to `import_node` (whose only
effect in the source is a diagnostic print of the row's RECORDID). -/
structure FMPImporter where
  fields : List (String × FieldDef)
  database : XMLNode
  imported : List XMLNode

/-- Model of `FMPImporter.__init__` (with the default date format, which
is the only one this model implements). -/
def initImporter : FMPImporter :=
  { fields := [], database := .mk "DATABASE" [] "" [], imported := [] }

/-- Model of `FMPImporter.add_field`: reads `NAME`, `TYPE`,
`int(MAXREPEAT)` and `EMPTYOK` from the node's attributes in source
order — a missing attribute raises `KeyError`, a non-numeric MAXREPEAT
raises `ValueError` — and stores the definition keyed by name. -/
def add_field (imp : FMPImporter) (node : XMLNode) : PyResult FMPImporter :=
  match attrGet node.attrs "NAME" with
  | .raised e => .raised e
  | .returned name =>
    match attrGet node.attrs "TYPE" with
    | .raised e => .raised e
    | .returned kind =>
      match attrGet node.attrs "MAXREPEAT" with
      | .raised e => .raised e
      | .returned mr =>
        match pyInt mr with
        | .raised e => .raised e
        | .returned maxrepeat =>
          match attrGet node.attrs "EMPTYOK" with
          | .raised e => .raised e
          | .returned eo =>
            .returned { imp with
              fields := odInsert imp.fields name
                ⟨name, kind, maxrepeat, if eo = "YES" then true else false⟩ }

/-- Folding `add_field` over a sequence of header field nodes. -/
def addFields (imp : FMPImporter) : List XMLNode → PyResult FMPImporter
  | [] => .returned imp
  | n :: ns =>
    match add_field imp n with
    | .raised e => .raised e
    | .returned imp1 => addFields imp1 ns

/-- Model of `FMPImporter.add_database`. -/
def add_database (imp : FMPImporter) (node : XMLNode) : FMPImporter :=
  { imp with database := node }

/-- Model of `FMPImporter.field_names`: the keys of `fields` in
insertion order. -/
def field_names (imp : FMPImporter) : List String :=
  imp.fields.map Prod.fst

/-- Model of `FMPImporter.import_node`: prints `node.attrs['RECORDID']`
(raising `KeyError` when the attribute is absent); the handing-over of
the row node is recorded in `imported`. -/
def import_node (imp : FMPImporter) (node : XMLNode) : PyResult FMPImporter :=
  match attrGet node.attrs "RECORDID" with
  | .raised e => .raised e
  | .returned _ => .returned { imp with imported := imp.imported ++ [node] }

/-- Model of `FMPImporter.format_dict`: iterates over the keys of `dic`
in order, looks each up in `self.fields` (`KeyError` when absent —
the `try` around `format_value` catches only `ValueError`, prints and
re-raises, so every exception propagates) and builds the new ordered
dict of coerced values. -/
def format_dict (fields : List (String × FieldDef)) :
    List (String × String) → PyResult (List (String × PyValue))
  | [] => .returned []
  | (key, v) :: rest =>
    match odFind fields key with
    | Option.none => .raised (.keyError key)
    | some fd =>
      match format_value fd.kind v with
      | .raised e => .raised e
      | .returned w =>
        match format_dict fields rest with
        | .raised e => .raised e
        | .returned tail => .returned ((key, w) :: tail)

/-- The list comprehension of `format_node`: the text of every DATA
child of every COL child of the row node, in document order. -/
def nodeVals (node : XMLNode) : List String :=
  (node.children.map (fun col => col.children.map (fun data => data.text))).flatten

/-- Model of `FMPImporter.format_node`:
`OrderedDict(zip(self.field_names(), vals))` passed to `format_dict`. -/
def format_node (imp : FMPImporter) (node : XMLNode) : PyResult (List (String × PyValue)) :=
  format_dict imp.fields (odOfPairs ((field_names imp).zip (nodeVals node)))

/-! Model of `FMPXMLHandler`.  The source keeps a stack `_depth` of open
nodes and appends each freshly started node to the children of the node
below it at `startElement` time, mutating nodes in place; at
`endElement('ROW')` it truncates the parent's children by one, which by
the stack discipline removes exactly the popped row node.  The
equivalent immutable state is a zipper: a stack of open frames, each
holding the children completed so far; a popped node is appended to the
frame below it at pop time — except a ROW, which is dropped instead,
mirroring append-then-truncate.  The head of `stack` is the top
(`current_node`). -/

/-- An open element: its data and its completed children so far. -/
structure Frame where
  name : String
  attrs : List (String × String)
  text : String
  children : List XMLNode

/-- The node value a frame closes to when popped. -/
def closeFrame (f : Frame) : XMLNode :=
  .mk f.name f.attrs f.text f.children

/-- Model of the handler state: the importer plus the stack of open
frames (head = top of `_depth`). -/
structure FMPXMLHandler where
  importer : FMPImporter
  stack : List Frame

/-- Model of `FMPXMLHandler.startElement`: a new node with empty text
and no children is pushed; the append to the parent's children of the
source is deferred to pop time in this zipper representation. -/
def startElement (h : FMPXMLHandler) (name : String)
    (attrs : List (String × String)) : FMPXMLHandler :=
  { h with stack := ⟨name, attrs, "", []⟩ :: h.stack }

/-- Model of `FMPXMLHandler.characters`: text is accumulated only on
ROW, COL and DATA nodes.  With an empty stack `current_node` is `None`
and `None.name` raises `AttributeError`. -/
def characters (h : FMPXMLHandler) (content : String) : PyResult FMPXMLHandler :=
  match h.stack with
  | [] => .raised .attributeError
  | f :: rest =>
    if f.name = "ROW" ∨ f.name = "COL" ∨ f.name = "DATA" then
      .returned { h with stack := { f with text := f.text ++ content } :: rest }
    else .returned h

/-- Attaching a closed node as the last child of the frame below it (the
source did this append at push time; with an empty rest the source's
root node simply was never attached anywhere). -/
def attachToParent (rest : List Frame) (node : XMLNode) : List Frame :=
  match rest with
  | [] => []
  | p :: ps => { p with children := p.children ++ [node] } :: ps

/-- Model of `FMPXMLHandler.endElement`: pop the top node (IndexError on
an empty stack); a DATABASE end-tag stores the node, a FIELD end-tag
routes it to `add_field` (errors propagate), a ROW end-tag routes it to
`import_node` and then removes it from the parent's children (with no
parent, `None.children` raises AttributeError); every other node simply
stays attached to its parent. -/
def endElement (h : FMPXMLHandler) (name : String) : PyResult FMPXMLHandler :=
  match h.stack with
  | [] => .raised .indexError
  | f :: rest =>
    let node := closeFrame f
    if name = "DATABASE" then
      .returned ⟨add_database h.importer node, attachToParent rest node⟩
    else if name = "FIELD" then
      match add_field h.importer node with
      | .raised e => .raised e
      | .returned imp1 => .returned ⟨imp1, attachToParent rest node⟩
    else if name = "ROW" then
      match import_node h.importer node with
      | .raised e => .raised e
      | .returned imp1 =>
        match rest with
        | [] => .raised .attributeError
        | _ :: _ => .returned ⟨imp1, rest⟩
    else .returned ⟨h.importer, attachToParent rest node⟩


/-! Helper lemmas. -/

lemma flexHour_le (p : TimeParts) : flexHour p ≤ 23 := by
  simp only [flexHour]
  split_ifs <;> omega

lemma timeMk_ok {h m s : Nat} (hh : h ≤ 23) (hm : m ≤ 59) (hs : s ≤ 59) :
    timeMk h m s = .returned ⟨h, m, s⟩ := by
  unfold timeMk
  rw [if_neg (by omega), if_neg (by omega), if_neg (by omega)]

lemma timeMk_returned {h m s : Nat} {t : PyTime}
    (hmk : timeMk h m s = .returned t) :
    t = ⟨h, m, s⟩ ∧ h ≤ 23 ∧ m ≤ 59 ∧ s ≤ 59 := by
  unfold timeMk at hmk
  split_ifs at hmk with h1 h2 h3
  cases hmk
  exact ⟨rfl, by omega, by omega, by omega⟩

lemma timeMk_raises {h m s : Nat} (hh : h ≤ 23) (hb : 59 < m ∨ 59 < s) :
    ∃ msg, timeMk h m s = .raised (.valueError msg) := by
  unfold timeMk
  rw [if_neg (by omega)]
  by_cases hm : 59 < m
  · rw [if_pos hm]
    exact ⟨_, rfl⟩
  · rw [if_neg hm, if_pos (by omega)]
    exact ⟨_, rfl⟩

lemma flexitime_of_search_none {s : String} (h : regexSearch s.data = none) :
    flexitime s = .returned none := by
  simp [flexitime, h]

lemma flexitime_of_search_some {s : String} {p : TimeParts}
    (hp : regexSearch s.data = some p) (hm : p.minutes ≤ 59)
    (hs : p.seconds.getD 0 ≤ 59) :
    flexitime s = .returned (some ⟨flexHour p, p.minutes, p.seconds.getD 0⟩) := by
  simp [flexitime, hp, timeMk_ok (flexHour_le p) hm hs]

lemma flexitime_returned {s : String} {p : TimeParts} {t : PyTime}
    (hp : regexSearch s.data = some p)
    (ht : flexitime s = .returned (some t)) :
    t = ⟨flexHour p, p.minutes, p.seconds.getD 0⟩ := by
  simp only [flexitime, hp] at ht
  cases htm : timeMk (flexHour p) p.minutes (p.seconds.getD 0) with
  | raised e => rw [htm] at ht; cases ht
  | returned t1 =>
    rw [htm] at ht
    injection ht with h1
    injection h1 with h2
    exact h2 ▸ (timeMk_returned htm).1

/-! Claim theorems. -/

/-- C1 (counterexample): the claim says `flexitime` never raises, but on
the input "1:99" the pattern matches with a minute capture of 99 and the
`datetime.time` constructor raises `ValueError`. -/
theorem flexitime_c1_counterexample :
    flexitime "1:99" = .raised (.valueError "minute must be in 0..59") := rfl

/-- C1 (amended): `flexitime` is a pure function over strings that
returns nothing when the pattern is not found, returns an
hour/minute/second value whenever the matched minute and (defaulted)
second captures are at most 59, and raises `ValueError` when a matched
minute or second capture exceeds 59 — the matched hour never causes a
raise because it is clamped to 0..23. -/
theorem flexitime_totality_amended :
    (∀ s : String, regexSearch s.data = none → flexitime s = .returned none) ∧
    (∀ (s : String) (p : TimeParts), regexSearch s.data = some p →
      (p.minutes ≤ 59 ∧ p.seconds.getD 0 ≤ 59 →
        flexitime s = .returned (some ⟨flexHour p, p.minutes, p.seconds.getD 0⟩)) ∧
      (59 < p.minutes ∨ 59 < p.seconds.getD 0 →
        ∃ msg, flexitime s = .raised (.valueError msg))) := by
  refine ⟨fun s h => flexitime_of_search_none h, fun s p hp => ⟨fun ⟨hm, hs⟩ => ?_, fun hb => ?_⟩⟩
  · exact flexitime_of_search_some hp hm hs
  · obtain ⟨msg, hmsg⟩ := timeMk_raises (flexHour_le p) hb
    refine ⟨msg, ?_⟩
    simp [flexitime, hp, hmsg]

/-- C1 (witness). -/
theorem flexitime_totality_amended_witness :
    flexitime "10:20:30" = .returned (some ⟨flexHour ⟨10, 20, some 30, none⟩, 20, 30⟩) ∧
    ∃ msg, flexitime "1:99" = .raised (.valueError msg) :=
  ⟨(flexitime_totality_amended.2 "10:20:30" ⟨10, 20, some 30, none⟩ rfl).1 (by decide),
   (flexitime_totality_amended.2 "1:99" ⟨1, 99, none, none⟩ rfl).2 (Or.inl (by decide))⟩

/-- C2: on a matched input, missing seconds default to 0; a captured pm
marker with hour below 12 adds 12 to the hour; a captured am marker
leaves the hour as-is; an hour above 23 becomes 0; the second of the
result is the (defaulted) seconds capture; and the listed concrete
inputs evaluate as the spec states, with "12:00 am" yielding hour 12. -/
theorem flexitime_semantics :
    (∀ (s : String) (p : TimeParts), regexSearch s.data = some p → p.seconds = none →
      p.minutes ≤ 59 → flexitime s = .returned (some ⟨flexHour p, p.minutes, 0⟩)) ∧
    (∀ (s : String) (p : TimeParts) (t : PyTime), regexSearch s.data = some p →
      flexitime s = .returned (some t) →
      (ampmIsPm p.ampm = true → p.hours < 12 → t.hour = p.hours + 12) ∧
      (∀ a, p.ampm = some a → pyLower a = "am" → p.hours ≤ 23 → t.hour = p.hours) ∧
      (23 < p.hours → t.hour = 0) ∧
      t.second = p.seconds.getD 0) ∧
    flexitime "12:00:00" = .returned (some ⟨12, 0, 0⟩) ∧
    flexitime "3:30 pm" = .returned (some ⟨15, 30, 0⟩) ∧
    flexitime "3.3pm" = .returned (some ⟨15, 3, 0⟩) ∧
    flexitime "24:00" = .returned (some ⟨0, 0, 0⟩) ∧
    flexitime "undefined" = .returned none ∧
    flexitime "" = .returned none ∧
    flexitime "12:00 am" = .returned (some ⟨12, 0, 0⟩) := by
  refine ⟨fun s p hp hsec hm => ?_, fun s p t hp ht => ?_, rfl, rfl, rfl, rfl, rfl, rfl, rfl⟩
  · have := flexitime_of_search_some hp hm (by rw [hsec]; exact Nat.zero_le _)
    rwa [hsec] at this
  · obtain rfl := flexitime_returned hp ht
    refine ⟨fun hpm hlt => ?_, fun a ha hlow hle => ?_, fun h23 => ?_, rfl⟩
    · show flexHour p = p.hours + 12
      have h1eq : (if ampmIsPm p.ampm = true ∧ p.hours < 12 then p.hours + 12 else p.hours)
          = p.hours + 12 := if_pos ⟨hpm, hlt⟩
      simp only [flexHour]
      rw [h1eq, if_neg (by omega)]
    · show flexHour p = p.hours
      have hnot : ampmIsPm p.ampm = false := by
        rw [ha]
        show (pyLower a == "pm") = false
        rw [hlow]
        rfl
      have h1eq : (if ampmIsPm p.ampm = true ∧ p.hours < 12 then p.hours + 12 else p.hours)
          = p.hours := if_neg (fun hc => by rw [hnot] at hc; exact Bool.false_ne_true hc.1)
      simp only [flexHour]
      rw [h1eq, if_neg (by omega)]
    · show flexHour p = 0
      have h1eq : (if ampmIsPm p.ampm = true ∧ p.hours < 12 then p.hours + 12 else p.hours)
          = p.hours := if_neg (fun hc => by have := hc.2; omega)
      simp only [flexHour]
      rw [h1eq, if_pos (by omega)]

/-- C2 (witness). -/
theorem flexitime_semantics_witness :
    (⟨15, 30, 0⟩ : PyTime).hour = (⟨3, 30, none, some "pm"⟩ : TimeParts).hours + 12 ∧
    flexitime "7.15" = .returned (some ⟨flexHour ⟨7, 15, none, none⟩, 15, 0⟩) :=
  ⟨(flexitime_semantics.2.1 "3:30 pm" ⟨3, 30, none, some "pm"⟩ ⟨15, 30, 0⟩ rfl rfl).1
      rfl (by decide),
   flexitime_semantics.1 "7.15" ⟨7, 15, none, none⟩ rfl rfl (by decide)⟩

lemma pyFloatDigitsDots_nonneg {cs : List Char} {q : ℚ}
    (h : pyFloatDigitsDots cs = .returned q) : 0 ≤ q := by
  unfold pyFloatDigitsDots at h
  split_ifs at h
  cases h
  positivity

/-- C3: NUMBER coercion strips every character that is not a digit or a
period, yields the `None` sentinel on an empty remainder or a failed
float parse, never raises, and maps "$1,234.56" to 1234.56 and "" and
"abc" to the sentinel. -/
theorem format_number_spec :
    (∀ v : String, ∃ r, format_number v = .returned r) ∧
    (∀ v : String, v.data.filter keepDigitDot = [] → format_number v = .returned none) ∧
    (∀ (v : String) (e : PyError), pyFloatDigitsDots (v.data.filter keepDigitDot) = .raised e →
      format_number v = .returned none) ∧
    (∀ (v : String) (q : ℚ), pyFloatDigitsDots (v.data.filter keepDigitDot) = .returned q →
      v.data.filter keepDigitDot ≠ [] → format_number v = .returned (some q)) ∧
    format_number "$1,234.56" = .returned (some ((123456 : ℚ) / 100)) ∧
    format_number "" = .returned none ∧
    format_number "abc" = .returned none := by
  refine ⟨fun v => ?_, fun v h => ?_, fun v e h => ?_, fun v q h hne => ?_, ?_, rfl, rfl⟩
  · simp only [format_number]
    by_cases h : v.data.filter keepDigitDot = []
    · rw [if_pos h]
      exact ⟨Option.none, rfl⟩
    · rw [if_neg h]
      cases hp : pyFloatDigitsDots (v.data.filter keepDigitDot) with
      | raised e => exact ⟨Option.none, rfl⟩
      | returned q => exact ⟨some q, rfl⟩
  · simp only [format_number]
    rw [if_pos h]
  · simp only [format_number]
    by_cases hs : v.data.filter keepDigitDot = []
    · rw [if_pos hs]
    · rw [if_neg hs, h]
  · simp only [format_number]
    rw [if_neg hne, h]
  · have e1 : format_number "$1,234.56"
        = .returned (some (((1234 : ℕ) : ℚ) + ((56 : ℕ) : ℚ) / 10 ^ (2 : ℕ))) := rfl
    rw [e1]
    norm_num

/-- C3 (witness). -/
theorem format_number_spec_witness :
    format_number "x9y.5z" = .returned (some (((9 : ℕ) : ℚ) + ((5 : ℕ) : ℚ) / 10 ^ (1 : ℕ))) :=
  format_number_spec.2.2.2.1 "x9y.5z" _ rfl (by decide)

/-- C9: NUMBER coercion discards any minus sign, so "-5" coerces to 5
and "-1.25" to 1.25, and every coerced NUMBER value is non-negative. -/
theorem format_number_nonnegative :
    format_number "-5" = .returned (some 5) ∧
    format_number "-1.25" = .returned (some ((125 : ℚ) / 100)) ∧
    (∀ (v : String) (q : ℚ), format_number v = .returned (some q) → 0 ≤ q) := by
  refine ⟨?_, ?_, fun v q h => ?_⟩
  · have e1 : format_number "-5"
        = .returned (some (((5 : ℕ) : ℚ) + ((0 : ℕ) : ℚ) / 10 ^ (0 : ℕ))) := rfl
    rw [e1]
    norm_num
  · have e1 : format_number "-1.25"
        = .returned (some (((1 : ℕ) : ℚ) + ((25 : ℕ) : ℚ) / 10 ^ (2 : ℕ))) := rfl
    rw [e1]
    norm_num
  simp only [format_number] at h
  split_ifs at h with h1
  · exact absurd h (by simp)
  · cases hp : pyFloatDigitsDots (v.data.filter keepDigitDot) with
    | raised e =>
      rw [hp] at h
      exact absurd h (by simp)
    | returned q1 =>
      rw [hp] at h
      simp only [PyResult.returned.injEq, Option.some.injEq] at h
      exact h ▸ pyFloatDigitsDots_nonneg hp

/-- C9 (witness). -/
theorem format_number_nonnegative_witness :
    (0 : ℚ) ≤ ((9 : ℕ) : ℚ) + ((5 : ℕ) : ℚ) / 10 ^ (1 : ℕ) :=
  format_number_nonnegative.2.2 "9.5" _ rfl

/-- C5: TIME coercion yields midnight whenever the lenient time parser
returns nothing — in particular for the empty string — never the `None`
sentinel, unlike NUMBER and DATE coercion of the empty string. -/
theorem format_time_defaults_midnight :
    (∀ v : String, flexitime v = .returned none → format_time v = .returned ⟨0, 0, 0⟩) ∧
    format_time "" = .returned ⟨0, 0, 0⟩ ∧
    format_number "" = .returned none ∧
    format_date "" = .returned none ∧
    (∀ (v : String) (t : PyTime), format_time v = .returned t →
      format_value "TIME" v = .returned (.time t)) := by
  refine ⟨fun v h => ?_, rfl, rfl, rfl, fun v t h => ?_⟩
  · unfold format_time
    rw [h]
  · unfold format_value
    rw [if_neg (by decide), if_neg (by decide), if_pos rfl, h]

/-- C5 (witness). -/
theorem format_time_defaults_midnight_witness :
    format_time "nomatch" = .returned ⟨0, 0, 0⟩ ∧
    format_value "TIME" "" = .returned (.time ⟨0, 0, 0⟩) :=
  ⟨format_time_defaults_midnight.1 "nomatch" rfl,
   format_time_defaults_midnight.2.2.2.2 "" ⟨0, 0, 0⟩ rfl⟩

/-- C4 (counterexample): "2021/02/30" is non-empty and matches the
configured default pattern textually, yet DATE coercion raises instead
of yielding a calendar date — the claim's match/no-match dichotomy
misses calendar-invalid matching values. -/
theorem format_date_c4_counterexample :
    strptimeYmd "2021/02/30".data = some (2021, 2, 30) ∧
    format_date "2021/02/30" = .raised (.valueError "day is out of range for month") :=
  ⟨rfl, rfl⟩

/-- C4 (amended): the empty string yields the sentinel; a non-empty
value matching the default pattern and denoting a valid calendar date
yields that date; a non-empty value that does not match raises a fatal
`ValueError`, as does a matching value whose components are calendar
invalid; and a DATE error propagates out of `format_dict` rather than
being degraded. -/
theorem format_date_spec_amended :
    format_date "" = .returned none ∧
    (∀ (s : String) (y m d : Nat), strptimeYmd s.data = some (y, m, d) →
      1 ≤ y → y ≤ 9999 → 1 ≤ m → m ≤ 12 → 1 ≤ d → d ≤ daysInMonth y m →
      format_date s = .returned (some ⟨y, m, d⟩)) ∧
    (∀ s : String, s ≠ "" → strptimeYmd s.data = none →
      format_date s = .raised (.valueError "time data does not match format")) ∧
    (∀ (s : String) (y m d : Nat), strptimeYmd s.data = some (y, m, d) →
      (d < 1 ∨ daysInMonth y m < d ∨ y < 1 ∨ 9999 < y ∨ m < 1 ∨ 12 < m) →
      ∃ e, format_date s = .raised e) ∧
    (∀ (fields : List (String × FieldDef)) (key v : String)
      (rest : List (String × String)) (fd : FieldDef) (e : PyError),
      odFind fields key = some fd → fd.kind = "DATE" → format_date v = .raised e →
      format_dict fields ((key, v) :: rest) = .raised e) ∧
    format_date "2020/01/15" = .returned (some ⟨2020, 1, 15⟩) ∧
    format_date "15-01-2020" = .raised (.valueError "time data does not match format") := by
  have hne : ∀ (s : String) (r : Nat × Nat × Nat), strptimeYmd s.data = some r → s ≠ "" := by
    intro s r hparse he
    rw [he] at hparse
    have hnil : strptimeYmd ("" : String).data = none := rfl
    rw [hnil] at hparse
    cases hparse
  refine ⟨rfl, fun s y m d hp h1 h2 h3 h4 h5 h6 => ?_, fun s hs hp => ?_,
    fun s y m d hp hbad => ?_, fun fields key v rest fd e hfind hkind hdate => ?_, rfl, rfl⟩
  · unfold format_date
    rw [if_neg (hne s _ hp)]
    simp only [hp]
    unfold dateMk
    rw [if_neg (by omega), if_neg (by omega), if_neg (by omega)]
  · unfold format_date
    rw [if_neg hs]
    simp only [hp]
  · unfold format_date
    rw [if_neg (hne s _ hp)]
    simp only [hp]
    unfold dateMk
    split_ifs with hc1 hc2 hc3
    · exact ⟨_, rfl⟩
    · exact ⟨_, rfl⟩
    · exact ⟨_, rfl⟩
    · exfalso
      rcases hbad with hb | hb | hb | hb | hb | hb <;> omega
  · have hv : format_value fd.kind v = .raised e := by
      rw [hkind]
      unfold format_value
      rw [if_neg (by decide), if_pos rfl, hdate]
    simp [format_dict, hfind, hv]

/-- C4 (witness). -/
theorem format_date_spec_amended_witness :
    format_date "2020/02/29" = .returned (some ⟨2020, 2, 29⟩) ∧
    format_date "nope" = .raised (.valueError "time data does not match format") ∧
    (∃ e, format_date "2020/02/30" = .raised e) ∧
    format_dict [("D", ⟨"D", "DATE", 1, true⟩)] [("D", "2020-01-01")]
      = .raised (.valueError "time data does not match format") :=
  ⟨format_date_spec_amended.2.1 "2020/02/29" 2020 2 29 rfl (by decide) (by decide)
      (by decide) (by decide) (by decide) (by decide),
   format_date_spec_amended.2.2.1 "nope" (by decide) rfl,
   format_date_spec_amended.2.2.2.1 "2020/02/30" 2020 2 30 rfl (by decide),
   format_date_spec_amended.2.2.2.2.1 [("D", ⟨"D", "DATE", 1, true⟩)] "D" "2020-01-01" []
      ⟨"D", "DATE", 1, true⟩ (.valueError "time data does not match format") rfl rfl rfl⟩

/-! Lemmas about the ordered-dictionary model. -/

lemma odInsert_cons_ne {α : Type} (p : String × α) (l : List (String × α))
    (k : String) (v : α) (hp : p.1 ≠ k) :
    odInsert (p :: l) k v = p :: odInsert l k v := by
  unfold odInsert
  have hpb : (p.1 == k) = false := beq_eq_false_iff_ne.mpr hp
  by_cases hl : (l.any fun q => q.1 == k) = true
  · rw [if_pos (by simp [List.any_cons, hpb, hl]), if_pos hl]
    simp only [List.map_cons]
    rw [if_neg (by simp [hpb])]
  · rw [if_neg (by simp [List.any_cons, hpb, hl]), if_neg hl]
    rfl

lemma odFind_cons_ne {α : Type} (p : String × α) (l : List (String × α))
    (k : String) (hp : p.1 ≠ k) : odFind (p :: l) k = odFind l k := by
  simp [odFind, List.find?_cons, beq_eq_false_iff_ne.mpr hp]

lemma odFind_odInsert_self {α : Type} :
    ∀ (l : List (String × α)) (k : String) (v : α),
      odFind (odInsert l k v) k = some v
  | [], k, v => by simp [odInsert, odFind]
  | p :: l, k, v => by
    by_cases hp : p.1 = k
    · rw [odInsert, if_pos (by simp [hp])]
      simp [odFind, List.find?_cons, hp]
    · rw [odInsert_cons_ne p l k v hp, odFind_cons_ne p _ k hp]
      exact odFind_odInsert_self l k v

lemma odInsert_not_mem {α : Type} {l : List (String × α)} {k : String} (v : α)
    (hk : k ∉ l.map Prod.fst) : odInsert l k v = l ++ [(k, v)] := by
  unfold odInsert
  rw [if_neg]
  intro hc
  simp only [List.any_eq_true, beq_iff_eq] at hc
  obtain ⟨p, hp, hpk⟩ := hc
  exact hk (hpk ▸ List.mem_map_of_mem Prod.fst hp)

/-- A header FIELD element carrying the four attributes the source
reads. -/
def mkFieldNode (nm kind mr eo : String) : XMLNode :=
  .mk "FIELD" [("NAME", nm), ("TYPE", kind), ("MAXREPEAT", mr), ("EMPTYOK", eo)] "" []

lemma add_field_mkFieldNode (imp : FMPImporter) (nm kind mr eo : String) :
    add_field imp (mkFieldNode nm kind mr eo)
      = match pyInt mr with
        | .raised e => .raised e
        | .returned r => .returned { imp with
            fields := odInsert imp.fields nm
              ⟨nm, kind, r, if eo = "YES" then true else false⟩ } := rfl

/-- C8: `add_field` extracts NAME, TYPE, MAXREPEAT and EMPTYOK from the
element's attributes; every non-numeric MAXREPEAT makes it fail with the
`int()` error; EMPTYOK "YES" is stored as allow-empty true and anything
else as false; and the resulting definition is stored keyed by the
name. -/
theorem add_field_spec :
    (∀ (imp : FMPImporter) (nm kind mr eo : String) (e : PyError),
      pyInt mr = .raised e →
      add_field imp (mkFieldNode nm kind mr eo) = .raised e) ∧
    (∀ (imp : FMPImporter) (nm kind mr eo : String) (r : Int),
      pyInt mr = .returned r →
      ∃ imp1, add_field imp (mkFieldNode nm kind mr eo) = .returned imp1 ∧
        odFind imp1.fields nm = some ⟨nm, kind, r, if eo = "YES" then true else false⟩) := by
  constructor
  · intro imp nm kind mr eo e he
    rw [add_field_mkFieldNode, he]
  · intro imp nm kind mr eo r hr
    refine ⟨_, by rw [add_field_mkFieldNode, hr], ?_⟩
    exact odFind_odInsert_self imp.fields nm _

/-- C8 (witness). -/
theorem add_field_spec_witness :
    add_field initImporter (mkFieldNode "F" "NUMBER" "x" "YES")
      = .raised (.valueError "invalid literal for int()") ∧
    ∃ imp1, add_field initImporter (mkFieldNode "G" "TEXT" "2" "NO") = .returned imp1 ∧
      odFind imp1.fields "G" = some ⟨"G", "TEXT", 2, if "NO" = "YES" then true else false⟩ :=
  ⟨add_field_spec.1 initImporter "F" "NUMBER" "x" "YES" _ rfl,
   add_field_spec.2 initImporter "G" "TEXT" "2" "NO" 2 rfl⟩

/-- C6: on an end-of-row event with a parent present, the handler hands
the completed row node to the row importer and leaves the rest of the
stack — in particular the parent frame's children — exactly unchanged,
so the row's subtree is no longer reachable from the parent; by
contrast, a generic end-tag attaches the completed node to the parent's
children. -/
theorem endElement_row_releases_subtree :
    (∀ (h : FMPXMLHandler) (f p : Frame) (rest : List Frame) (rid : String),
      h.stack = f :: p :: rest → attrGet f.attrs "RECORDID" = .returned rid →
      endElement h "ROW" = .returned
        ⟨{ h.importer with imported := h.importer.imported ++ [closeFrame f] },
         p :: rest⟩) ∧
    (∀ (h : FMPXMLHandler) (f p : Frame) (rest : List Frame) (nm : String),
      h.stack = f :: p :: rest →
      nm ≠ "DATABASE" → nm ≠ "FIELD" → nm ≠ "ROW" →
      endElement h nm = .returned
        ⟨h.importer, { p with children := p.children ++ [closeFrame f] } :: rest⟩) := by
  constructor
  · intro h f p rest rid hstack hrid
    have himp : import_node h.importer (closeFrame f)
        = .returned { h.importer with imported := h.importer.imported ++ [closeFrame f] } := by
      unfold import_node
      have ha : XMLNode.attrs (closeFrame f) = f.attrs := rfl
      rw [ha, hrid]
    simp only [endElement, hstack]
    rw [if_pos trivial, himp]
    rw [if_neg (show ("ROW" : String) ≠ "DATABASE" by decide),
      if_neg (show ("ROW" : String) ≠ "FIELD" by decide)]
  · intro h f p rest nm hstack hdb hfld hrow
    simp only [endElement, hstack]
    rw [if_neg hdb, if_neg hfld, if_neg hrow]
    rfl

/-- C6 (witness). -/
theorem endElement_row_releases_subtree_witness :
    endElement
        ⟨initImporter,
         [⟨"ROW", [("RECORDID", "1")], "", []⟩, ⟨"RESULTSET", [], "", []⟩]⟩ "ROW"
      = .returned
        ⟨{ initImporter with
            imported := [closeFrame ⟨"ROW", [("RECORDID", "1")], "", []⟩] },
         [⟨"RESULTSET", [], "", []⟩]⟩ :=
  endElement_row_releases_subtree.1 _ _ _ [] "1" rfl rfl

/-! Lemmas for declaration order and row zipping. -/

lemma foldl_odInsert_eq {α : Type} :
    ∀ (ps acc : List (String × α)), ((acc ++ ps).map Prod.fst).Nodup →
      ps.foldl (fun a p => odInsert a p.1 p.2) acc = acc ++ ps
  | [], acc, _ => by simp
  | (k, v) :: ps, acc, h => by
    have h2 : (((acc ++ [(k, v)]) ++ ps).map Prod.fst).Nodup := by
      rw [← List.append_cons]
      exact h
    have hk : k ∉ acc.map Prod.fst := by
      intro hmem
      rw [List.map_append, List.map_cons] at h
      rcases List.nodup_append.mp h with ⟨_, _, hdisj⟩
      exact hdisj hmem (List.mem_cons_self k _)
    simp only [List.foldl_cons]
    rw [show odInsert acc k v = acc ++ [(k, v)] from odInsert_not_mem v hk]
    rw [foldl_odInsert_eq ps (acc ++ [(k, v)]) h2]
    rw [← List.append_cons]

lemma odOfPairs_eq {α : Type} (ps : List (String × α))
    (h : (ps.map Prod.fst).Nodup) : odOfPairs ps = ps := by
  have := foldl_odInsert_eq ps [] (by simpa using h)
  simpa [odOfPairs] using this

lemma map_fst_zip_sublist {α β : Type} :
    ∀ (l1 : List α) (l2 : List β), ((l1.zip l2).map Prod.fst).Sublist l1
  | [], _ => by simp
  | _ :: _, [] => by simp
  | a :: l1, b :: l2 => by
    simp only [List.zip_cons_cons, List.map_cons]
    exact List.Sublist.cons₂ a (map_fst_zip_sublist l1 l2)

lemma addFields_field_names :
    ∀ (specs : List (String × String × String × String)) (imp0 imp : FMPImporter),
      addFields imp0 (specs.map fun q => mkFieldNode q.1 q.2.1 q.2.2.1 q.2.2.2)
        = .returned imp →
      (field_names imp0 ++ specs.map fun q => q.1).Nodup →
      field_names imp = field_names imp0 ++ specs.map fun q => q.1
  | [], imp0, imp, hadd, _ => by
    simp only [List.map_nil, addFields] at hadd
    cases hadd
    simp
  | (nm, kind, mr, eo) :: specs, imp0, imp, hadd, hnd => by
    simp only [List.map_cons, addFields, add_field_mkFieldNode] at hadd
    cases hpy : pyInt mr with
    | raised e => rw [hpy] at hadd; cases hadd
    | returned r =>
      simp only [hpy] at hadd
      have hk : nm ∉ field_names imp0 := by
        intro hmem
        rcases List.nodup_append.mp hnd with ⟨_, _, hdisj⟩
        exact hdisj hmem (by simp)
      have hfn : field_names { imp0 with
          fields := odInsert imp0.fields nm
            ⟨nm, kind, r, if eo = "YES" then true else false⟩ }
          = field_names imp0 ++ [nm] := by
        simp only [field_names]
        rw [odInsert_not_mem _ hk]
        simp
      have h2 : (field_names { imp0 with
          fields := odInsert imp0.fields nm
            ⟨nm, kind, r, if eo = "YES" then true else false⟩ }
          ++ specs.map fun q => q.1).Nodup := by
        rw [hfn, ← List.append_cons]
        exact hnd
      rw [addFields_field_names specs _ imp hadd h2, hfn, ← List.append_cons]
      simp only [List.map_cons]

/-- C7: the field registry preserves declaration order — folding
`add_field` over header elements with pairwise distinct names yields
exactly those names, in order, from `field_names` — and with distinct
names the ordered dictionary built by `format_node` from
`zip(field_names, vals)` is exactly the positional pairing. -/
theorem field_names_declaration_order :
    (∀ (specs : List (String × String × String × String)) (imp : FMPImporter),
      addFields initImporter (specs.map fun q => mkFieldNode q.1 q.2.1 q.2.2.1 q.2.2.2)
        = .returned imp →
      (specs.map fun q => q.1).Nodup →
      field_names imp = specs.map fun q => q.1) ∧
    (∀ (imp : FMPImporter) (node : XMLNode), (field_names imp).Nodup →
      format_node imp node
        = format_dict imp.fields ((field_names imp).zip (nodeVals node))) := by
  constructor
  · intro specs imp hadd hnd
    have h0 : field_names initImporter = [] := rfl
    have := addFields_field_names specs initImporter imp hadd (by rw [h0]; simpa using hnd)
    rwa [h0, List.nil_append] at this
  · intro imp node hnd
    unfold format_node
    rw [odOfPairs_eq _ ((map_fst_zip_sublist _ _).nodup hnd)]

/-- C7 (witness). -/
theorem field_names_declaration_order_witness :
    field_names
        ⟨[("A", ⟨"A", "TEXT", 1, true⟩), ("B", ⟨"B", "NUMBER", 1, false⟩),
          ("C", ⟨"C", "DATE", 2, true⟩)], .mk "DATABASE" [] "" [], []⟩
      = [("A", "TEXT", "1", "YES"), ("B", "NUMBER", "1", "NO"),
         ("C", "DATE", "2", "YES")].map (fun q => q.1) :=
  field_names_declaration_order.1
    [("A", "TEXT", "1", "YES"), ("B", "NUMBER", "1", "NO"), ("C", "DATE", "2", "YES")]
    _ rfl (by decide)

/-! Lemmas about `format_dict` and the kinds of error it can raise. -/

lemma format_dict_keys (fields : List (String × FieldDef)) :
    ∀ (dic : List (String × String)) (r : List (String × PyValue)),
      format_dict fields dic = .returned r → r.map Prod.fst = dic.map Prod.fst
  | [], r, h => by
    simp only [format_dict] at h
    cases h
    rfl
  | (key, v) :: rest, r, h => by
    simp only [format_dict] at h
    cases hf : odFind fields key with
    | none => simp only [hf] at h; cases h
    | some fd =>
      simp only [hf] at h
      cases hv : format_value fd.kind v with
      | raised e => simp only [hv] at h; cases h
      | returned w =>
        simp only [hv] at h
        cases hr : format_dict fields rest with
        | raised e => simp only [hr] at h; cases h
        | returned tail =>
          simp only [hr] at h
          cases h
          simp only [List.map_cons]
          rw [format_dict_keys fields rest tail hr]

lemma format_dict_forall2 (fields : List (String × FieldDef)) :
    ∀ (dic : List (String × String)) (r : List (String × PyValue)),
      format_dict fields dic = .returned r →
      List.Forall₂ (fun (p : String × String) (q : String × PyValue) =>
        q.1 = p.1 ∧ ∃ fd, odFind fields p.1 = some fd ∧
          format_value fd.kind p.2 = .returned q.2) dic r
  | [], r, h => by
    simp only [format_dict] at h
    cases h
    exact List.Forall₂.nil
  | (key, v) :: rest, r, h => by
    simp only [format_dict] at h
    cases hf : odFind fields key with
    | none => simp only [hf] at h; cases h
    | some fd =>
      simp only [hf] at h
      cases hv : format_value fd.kind v with
      | raised e => simp only [hv] at h; cases h
      | returned w =>
        simp only [hv] at h
        cases hr : format_dict fields rest with
        | raised e => simp only [hr] at h; cases h
        | returned tail =>
          simp only [hr] at h
          cases h
          exact List.Forall₂.cons ⟨rfl, fd, hf, hv⟩
            (format_dict_forall2 fields rest tail hr)

lemma format_number_returns (v : String) : ∃ r, format_number v = .returned r := by
  simp only [format_number]
  by_cases h : v.data.filter keepDigitDot = []
  · rw [if_pos h]
    exact ⟨Option.none, rfl⟩
  · rw [if_neg h]
    cases hp : pyFloatDigitsDots (v.data.filter keepDigitDot) with
    | raised e => exact ⟨Option.none, rfl⟩
    | returned q => exact ⟨some q, rfl⟩

lemma format_date_raises_valueError {v : String} {e : PyError}
    (h : format_date v = .raised e) : ∃ msg, e = .valueError msg := by
  unfold format_date at h
  split_ifs at h
  cases hp : strptimeYmd v.data with
  | none =>
    simp only [hp] at h
    cases h
    exact ⟨_, rfl⟩
  | some t =>
    obtain ⟨y, m, d⟩ := t
    simp only [hp] at h
    unfold dateMk at h
    split_ifs at h <;> cases h <;> exact ⟨_, rfl⟩

lemma flexitime_raises_valueError {v : String} {e : PyError}
    (h : flexitime v = .raised e) : ∃ msg, e = .valueError msg := by
  unfold flexitime at h
  cases hs : regexSearch v.data with
  | none =>
    simp only [hs] at h
    cases h
  | some p =>
    simp only [hs] at h
    unfold timeMk at h
    split_ifs at h <;> cases h <;> exact ⟨_, rfl⟩

lemma format_time_raises_valueError {v : String} {e : PyError}
    (h : format_time v = .raised e) : ∃ msg, e = .valueError msg := by
  unfold format_time at h
  cases hf : flexitime v with
  | raised e1 =>
    simp only [hf] at h
    cases h
    exact flexitime_raises_valueError hf
  | returned o =>
    simp only [hf] at h
    cases o
    · cases h
    · cases h

lemma format_value_not_keyError (kind v k : String) :
    format_value kind v ≠ .raised (.keyError k) := by
  intro h
  unfold format_value at h
  split_ifs at h
  · obtain ⟨r, hr⟩ := format_number_returns v
    simp only [hr] at h
    cases r
    · cases h
    · cases h
  · cases hd : format_date v with
    | raised e =>
      rw [hd] at h
      cases h
      obtain ⟨msg, hmsg⟩ := format_date_raises_valueError hd
      cases hmsg
    | returned o =>
      rw [hd] at h
      cases o
      · cases h
      · cases h
  · cases ht : format_time v with
    | raised e =>
      rw [ht] at h
      cases h
      obtain ⟨msg, hmsg⟩ := format_time_raises_valueError ht
      cases hmsg
    | returned t =>
      rw [ht] at h
      cases h

lemma format_dict_not_keyError (fields : List (String × FieldDef)) :
    ∀ (dic : List (String × String)),
      (∀ k ∈ dic.map Prod.fst, ∃ fd, odFind fields k = some fd) →
      ∀ k', format_dict fields dic ≠ .raised (.keyError k')
  | [], _, k', h => by
    simp only [format_dict] at h
    cases h
  | (key, v) :: rest, hmem, k', h => by
    simp only [format_dict] at h
    obtain ⟨fd, hfd⟩ := hmem key (by simp)
    simp only [hfd] at h
    cases hv : format_value fd.kind v with
    | raised e =>
      simp only [hv] at h
      cases h
      exact format_value_not_keyError fd.kind v k' hv
    | returned w =>
      simp only [hv] at h
      cases hr : format_dict fields rest with
      | raised e =>
        simp only [hr] at h
        cases h
        exact format_dict_not_keyError fields rest
          (fun k hk => hmem k (List.mem_cons_of_mem _ hk)) k' hr
      | returned tail => simp only [hr] at h; cases h

/-- C10: with a duplicate-free registry, row formatting truncates to the
shorter of field names and data values: the produced record's keys are
exactly the zipped (hence truncated) key sequence, its length is the
minimum of the two lengths, each record entry is the coercion of the
positionally corresponding data value, and the length mismatch itself
never raises a KeyError. -/
theorem format_node_truncates :
    (∀ (imp : FMPImporter) (node : XMLNode) (r : List (String × PyValue)),
      (field_names imp).Nodup → format_node imp node = .returned r →
      r.map Prod.fst = ((field_names imp).zip (nodeVals node)).map Prod.fst ∧
      r.length = min (field_names imp).length (nodeVals node).length ∧
      List.Forall₂ (fun (p : String × String) (q : String × PyValue) =>
        q.1 = p.1 ∧ ∃ fd, odFind imp.fields p.1 = some fd ∧
          format_value fd.kind p.2 = .returned q.2)
        ((field_names imp).zip (nodeVals node)) r) ∧
    (∀ (imp : FMPImporter) (node : XMLNode) (k : String), (field_names imp).Nodup →
      format_node imp node ≠ .raised (.keyError k)) := by
  have heq : ∀ (imp : FMPImporter) (node : XMLNode), (field_names imp).Nodup →
      format_node imp node
        = format_dict imp.fields ((field_names imp).zip (nodeVals node)) := by
    intro imp node hnd
    unfold format_node
    rw [odOfPairs_eq _ ((map_fst_zip_sublist _ _).nodup hnd)]
  constructor
  · intro imp node r hnd hfmt
    rw [heq imp node hnd] at hfmt
    refine ⟨format_dict_keys _ _ _ hfmt, ?_, format_dict_forall2 _ _ _ hfmt⟩
    have hk := format_dict_keys _ _ _ hfmt
    have hlen : r.length = ((field_names imp).zip (nodeVals node)).length := by
      have := congrArg List.length hk
      simpa using this
    rw [hlen, List.length_zip]
  · intro imp node k hnd h
    rw [heq imp node hnd] at h
    refine format_dict_not_keyError imp.fields _ ?_ k h
    intro key hkey
    have hmem : key ∈ field_names imp := (map_fst_zip_sublist _ _).subset hkey
    unfold odFind
    cases hf : imp.fields.find? (fun q => q.1 == key) with
    | none =>
      exfalso
      obtain ⟨p, hp, hpk⟩ := List.mem_map.mp hmem
      exact (List.find?_eq_none.mp hf p hp) (by simp [hpk])
    | some q => exact ⟨q.2, rfl⟩

/-- A two-field registry used to exercise row truncation. -/
def impTrunc : FMPImporter :=
  ⟨[("A", ⟨"A", "TIME", 1, true⟩), ("B", ⟨"B", "TIME", 1, true⟩)],
   .mk "DATABASE" [] "" [], []⟩

/-- A row with three data values, one more than the registry has
fields. -/
def nodeTrunc : XMLNode :=
  .mk "ROW" [("RECORDID", "7")] ""
    [.mk "COL" [] "" [.mk "DATA" [] "1:02" []],
     .mk "COL" [] "" [.mk "DATA" [] "3:04" []],
     .mk "COL" [] "" [.mk "DATA" [] "5:06" []]]

/-- C10 (witness). -/
theorem format_node_truncates_witness :
    ([("A", PyValue.time ⟨1, 2, 0⟩), ("B", PyValue.time ⟨3, 4, 0⟩)]
        : List (String × PyValue)).map Prod.fst
      = ((field_names impTrunc).zip (nodeVals nodeTrunc)).map Prod.fst ∧
    ([("A", PyValue.time ⟨1, 2, 0⟩), ("B", PyValue.time ⟨3, 4, 0⟩)]
        : List (String × PyValue)).length
      = min (field_names impTrunc).length (nodeVals nodeTrunc).length :=
  ⟨(format_node_truncates.1 impTrunc nodeTrunc _ (by decide) rfl).1,
   (format_node_truncates.1 impTrunc nodeTrunc _ (by decide) rfl).2.1⟩

end Filemaker
